import Mathlib

/-!
Verification of the wireless power transfer simulator core (`src/main.py`).

The physics pipeline of the simulator is embedded shallowly over the real
numbers.  Python arithmetic failures (`ZeroDivisionError` on `x / 0`,
`ValueError` on `math.sqrt` of a negative number) are modelled by returning
`none` from an `Option`-valued function; a produced value is `some`.
All field names and intermediate names follow the Python source.
-/

set_option linter.unusedVariables false
set_option maxHeartbeats 1000000

noncomputable section

/-- Input record of `calculate_power_transfer` (`SimulationParams` in the
source; pydantic `int` fields become `ℤ`, `float` fields become `ℝ`). -/
structure SimulationParams where
  primary_turns : ℤ
  secondary_turns : ℤ
  coil_radius : ℝ
  wire_diameter : ℝ
  air_gap : ℝ
  frequency : ℝ
  input_power : ℝ
  input_voltage : ℝ
  load_resistance : ℝ

/-- Permeability of free space, `mu_0 = 4 * math.pi * 1e-7` in the source. -/
def mu_0 : ℝ := 4 * Real.pi * 1e-7

/-- Copper resistivity, `resistivity_copper = 1.68e-8` in the source. -/
def resistivity_copper : ℝ := 1.68e-8

/-- Embedding of `calculate_self_inductance` from `src/main.py`.  Wheeler's approximation;
raises `ZeroDivisionError` (here: `none`) when `coil_length = 0`, and also
when the correction denominator `1 + 0.9 * radius / coil_length` is zero. -/
def calculate_self_inductance (turns : ℤ) (radius : ℝ) (wire_diameter : ℝ) : Option ℝ :=
  let area := Real.pi * radius ^ 2
  let coil_length := (turns : ℝ) * wire_diameter
  if coil_length = 0 then none
  else if 1 + 0.9 * radius / coil_length = 0 then none
  else
    let k_factor := 1 / (1 + 0.9 * radius / coil_length)
    some (mu_0 * (turns : ℝ) ^ 2 * area * k_factor / coil_length)

/-- Embedding of `calculate_mutual_inductance` from `src/main.py`.  The base of the `** 1.5`
power is a sum of squares, hence nonnegative; the division raises
(`none`) exactly when that base is zero. -/
def calculate_mutual_inductance (n1 n2 : ℤ) (r1 r2 distance : ℝ) : Option ℝ :=
  let r_eff_sq := r1 * r1 * r2 * r2
  let avg_r_sq := (r1 ^ 2 + r2 ^ 2) / 2
  if avg_r_sq + distance ^ 2 = 0 then none
  else some (mu_0 * Real.pi * (n1 : ℝ) * (n2 : ℝ) * r_eff_sq /
    (2 * (avg_r_sq + distance ^ 2) ^ (1.5 : ℝ)))

/-- Embedding of `calculate_coupling_coefficient` from `src/main.py`:
`M / math.sqrt(L1 * L2) if L1 > 0 and L2 > 0 else 0`. -/
def calculate_coupling_coefficient (L1 L2 M : ℝ) : ℝ :=
  if 0 < L1 ∧ 0 < L2 then M / Real.sqrt (L1 * L2) else 0

/-- Embedding of `calculate_resonant_capacitance` from `src/main.py`:
`1 / (omega ** 2 * inductance)`; raises (`none`) when the denominator is 0. -/
def calculate_resonant_capacitance (inductance frequency : ℝ) : Option ℝ :=
  let omega := 2 * Real.pi * frequency
  if omega ^ 2 * inductance = 0 then none
  else some (1 / (omega ^ 2 * inductance))

/-- Embedding of `calculate_ac_resistance` from `src/main.py`.  The skin-depth expression
`math.sqrt(resistivity_copper / (math.pi * frequency * mu_0))` raises a
`ZeroDivisionError` when `frequency = 0` and a `ValueError` when the argument
of `math.sqrt` is negative (`frequency < 0`); both are modelled by `none`.
Once those guards pass the skin depth is strictly positive (the argument of
the square root is a positive constant divided by a nonzero number), so the
remaining divisions are safe.  Returns `(ac_resistance, skin_depth)`. -/
def calculate_ac_resistance (dc_resistance wire_diameter frequency : ℝ) :
    Option (ℝ × ℝ) :=
  if Real.pi * frequency * mu_0 = 0 then none
  else if resistivity_copper / (Real.pi * frequency * mu_0) < 0 then none
  else
    let skin_depth := Real.sqrt (resistivity_copper / (Real.pi * frequency * mu_0))
    let wire_radius := wire_diameter / 2
    let ratio := wire_radius / skin_depth
    if 2.0 < ratio then
      some (dc_resistance * (wire_radius / (2 * skin_depth)), skin_depth)
    else
      some (dc_resistance * (1 + ratio ^ 4 / 48), skin_depth)

/-- Output record of `calculate_power_transfer`, flattening the nested result
dict of the source; each field keeps the dict key's name and unit conversion
(the key `resistance_ratio` of the `skin_effect` group is here named
`resistance_quotient`). -/
structure PowerTransferResult where
  primary_uH : ℝ
  secondary_uH : ℝ
  mutual_uH : ℝ
  coefficient : ℝ
  critical_k : ℝ
  status : String
  capacitor_primary_nF : ℝ
  capacitor_secondary_nF : ℝ
  Q1 : ℝ
  Q2 : ℝ
  percent : ℝ
  max_percent : ℝ
  optimal_load_ohm : ℝ
  power_input_W : ℝ
  power_output_W : ℝ
  power_loss_W : ℝ
  primary_A : ℝ
  secondary_A : ℝ
  primary_dc_mOhm : ℝ
  secondary_dc_mOhm : ℝ
  primary_ac_mOhm : ℝ
  secondary_ac_mOhm : ℝ
  skin_depth_mm : ℝ
  resistance_quotient : ℝ

/-- Embedding of `calculate_power_transfer` from `src/main.py`, line by line.  A `none`
anywhere aborts the computation, exactly as a raised exception would. -/
def calculate_power_transfer (params : SimulationParams) : Option PowerTransferResult := do
  let L1 ← calculate_self_inductance params.primary_turns params.coil_radius params.wire_diameter
  let L2 ← calculate_self_inductance params.secondary_turns params.coil_radius params.wire_diameter
  let M ← calculate_mutual_inductance params.primary_turns params.secondary_turns
    params.coil_radius params.coil_radius params.air_gap
  let k := calculate_coupling_coefficient L1 L2 M
  let omega := 2 * Real.pi * params.frequency
  let C1 ← calculate_resonant_capacitance L1 params.frequency
  let C2 ← calculate_resonant_capacitance L2 params.frequency
  let X_L1 := omega * L1
  let X_L2 := omega * L2
  let X_M := omega * M
  let wire_length_1 := 2 * Real.pi * params.coil_radius * (params.primary_turns : ℝ)
  let wire_length_2 := 2 * Real.pi * params.coil_radius * (params.secondary_turns : ℝ)
  let wire_area := Real.pi * (params.wire_diameter / 2) ^ 2
  if wire_area = 0 then none
  else do
    let R1_dc := resistivity_copper * wire_length_1 / wire_area
    let R2_dc := resistivity_copper * wire_length_2 / wire_area
    let (R1_ac, skin_depth) ← calculate_ac_resistance R1_dc params.wire_diameter params.frequency
    let (R2_ac, _sd2) ← calculate_ac_resistance R2_dc params.wire_diameter params.frequency
    let Q1 := if 0 < R1_ac then X_L1 / R1_ac else 0
    let Q2 := if 0 < R2_ac then X_L2 / R2_ac else 0
    let kQ_product := k ^ 2 * Q1 * Q2
    let efficiency_max :=
      if 0 < kQ_product then kQ_product / (1 + Real.sqrt (1 + kQ_product)) ^ 2 else 0
    let omega_M_sq := (omega * M) ^ 2
    let R2_total := R2_ac + params.load_resistance
    let efficiency :=
      if 0 < omega_M_sq ∧ 0 < R2_total then
        let Z_reflected := omega_M_sq / R2_total
        let eta_primary := Z_reflected / (R1_ac + Z_reflected)
        let eta_secondary := params.load_resistance / R2_total
        eta_primary * eta_secondary
      else 0
    let optimal_load := if 0 < kQ_product then R2_ac * Real.sqrt (1 + kQ_product) else 0
    let power_input := params.input_power
    let power_output := power_input * efficiency
    let power_loss := power_input - power_output
    let I_primary := if 0 < params.input_voltage then power_input / params.input_voltage else 0
    let I_secondary :=
      if 0 < params.load_resistance ∧ 0 < power_output then
        Real.sqrt (power_output / params.load_resistance)
      else 0
    let k_critical := if 0 < Q1 ∧ 0 < Q2 then 1 / Real.sqrt (Q1 * Q2) else 0
    let coupling_status :=
      if k_critical < k then "over-coupled"
      else if |k - k_critical| < 0.01 then "critically-coupled"
      else "under-coupled"
    some {
      primary_uH := L1 * 1e6
      secondary_uH := L2 * 1e6
      mutual_uH := M * 1e6
      coefficient := k
      critical_k := k_critical
      status := coupling_status
      capacitor_primary_nF := C1 * 1e9
      capacitor_secondary_nF := C2 * 1e9
      Q1 := Q1
      Q2 := Q2
      percent := efficiency * 100
      max_percent := efficiency_max * 100
      optimal_load_ohm := optimal_load
      power_input_W := power_input
      power_output_W := power_output
      power_loss_W := power_loss
      primary_A := I_primary
      secondary_A := I_secondary
      primary_dc_mOhm := R1_dc * 1000
      secondary_dc_mOhm := R2_dc * 1000
      primary_ac_mOhm := R1_ac * 1000
      secondary_ac_mOhm := R2_ac * 1000
      skin_depth_mm := skin_depth * 1000
      resistance_quotient := if 0 < R1_dc then R1_ac / R1_dc else 1 }

/-! ## Happy-path values

For inputs on which no Python exception fires, each pipeline stage produces a
closed-form real value.  The following functions name these values; the
`..._eq` lemmas below prove that the `Option`-valued source embeddings indeed
return `some` of them under the corresponding non-degeneracy conditions. -/

/-- Value produced by `calculate_self_inductance` when its divisions succeed. -/
def selfLVal (turns : ℤ) (radius wire_diameter : ℝ) : ℝ :=
  mu_0 * (turns : ℝ) ^ 2 * (Real.pi * radius ^ 2) *
    (1 / (1 + 0.9 * radius / ((turns : ℝ) * wire_diameter))) / ((turns : ℝ) * wire_diameter)

/-- Value produced by `calculate_mutual_inductance` when its division succeeds. -/
def mutualVal (n1 n2 : ℤ) (r1 r2 distance : ℝ) : ℝ :=
  mu_0 * Real.pi * (n1 : ℝ) * (n2 : ℝ) * (r1 * r1 * r2 * r2) /
    (2 * ((r1 ^ 2 + r2 ^ 2) / 2 + distance ^ 2) ^ (1.5 : ℝ))

/-- Value produced by `calculate_resonant_capacitance` when its division succeeds. -/
def resCapVal (inductance frequency : ℝ) : ℝ :=
  1 / ((2 * Real.pi * frequency) ^ 2 * inductance)

/-- Skin depth computed inside `calculate_ac_resistance`. -/
def skinDepthVal (frequency : ℝ) : ℝ :=
  Real.sqrt (resistivity_copper / (Real.pi * frequency * mu_0))

/-- AC resistance computed by `calculate_ac_resistance` when its guards pass. -/
def acResistanceVal (dc_resistance wire_diameter frequency : ℝ) : ℝ :=
  let skin_depth := skinDepthVal frequency
  let wire_radius := wire_diameter / 2
  let ratio := wire_radius / skin_depth
  if 2.0 < ratio then dc_resistance * (wire_radius / (2 * skin_depth))
  else dc_resistance * (1 + ratio ^ 4 / 48)

/-- Domain validity of the geometric and electrical inputs: positive turn
counts, coil radius, wire diameter and frequency (§3 of the spec). -/
def Valid (p : SimulationParams) : Prop :=
  0 < p.primary_turns ∧ 0 < p.secondary_turns ∧ 0 < p.coil_radius ∧
    0 < p.wire_diameter ∧ 0 < p.frequency

lemma mu_0_pos : 0 < mu_0 := by
  unfold mu_0
  positivity

lemma resistivity_copper_pos : 0 < resistivity_copper := by
  unfold resistivity_copper
  norm_num

lemma calculate_self_inductance_eq {t : ℤ} {r d : ℝ} (ht : 0 < t) (hr : 0 < r) (hd : 0 < d) :
    calculate_self_inductance t r d = some (selfLVal t r d) := by
  have htR : (0 : ℝ) < (t : ℝ) := by exact_mod_cast ht
  have hl : 0 < (t : ℝ) * d := mul_pos htR hd
  have hden : 0 < 1 + 0.9 * r / ((t : ℝ) * d) := by positivity
  unfold calculate_self_inductance selfLVal
  rw [if_neg (ne_of_gt hl), if_neg (ne_of_gt hden)]

lemma calculate_mutual_inductance_eq {n1 n2 : ℤ} {r1 r2 dist : ℝ}
    (h : 0 < (r1 ^ 2 + r2 ^ 2) / 2 + dist ^ 2) :
    calculate_mutual_inductance n1 n2 r1 r2 dist = some (mutualVal n1 n2 r1 r2 dist) := by
  unfold calculate_mutual_inductance mutualVal
  rw [if_neg (ne_of_gt h)]

lemma calculate_resonant_capacitance_eq {L f : ℝ} (h : (2 * Real.pi * f) ^ 2 * L ≠ 0) :
    calculate_resonant_capacitance L f = some (resCapVal L f) := by
  unfold calculate_resonant_capacitance resCapVal
  rw [if_neg h]

lemma skinDepthVal_pos {f : ℝ} (hf : 0 < f) : 0 < skinDepthVal f := by
  unfold skinDepthVal
  have : 0 < resistivity_copper / (Real.pi * f * mu_0) :=
    div_pos resistivity_copper_pos (mul_pos (mul_pos Real.pi_pos hf) mu_0_pos)
  exact Real.sqrt_pos.mpr this

lemma calculate_ac_resistance_eq {f : ℝ} (hf : 0 < f) (dc d : ℝ) :
    calculate_ac_resistance dc d f = some (acResistanceVal dc d f, skinDepthVal f) := by
  have hden : 0 < Real.pi * f * mu_0 := mul_pos (mul_pos Real.pi_pos hf) mu_0_pos
  have harg : 0 < resistivity_copper / (Real.pi * f * mu_0) :=
    div_pos resistivity_copper_pos hden
  unfold calculate_ac_resistance acResistanceVal skinDepthVal
  rw [if_neg (ne_of_gt hden), if_neg (not_lt.mpr harg.le)]
  dsimp only
  split_ifs <;> rfl

/-! ## The happy-path result record

`resultVal` names the record that `calculate_power_transfer` returns on
domain-valid inputs; `calculate_power_transfer_eq` proves it. -/

/-- Value `L1` of `calculate_power_transfer` on the happy path. -/
def L1v (p : SimulationParams) : ℝ :=
  selfLVal p.primary_turns p.coil_radius p.wire_diameter

/-- Value `L2` of `calculate_power_transfer` on the happy path. -/
def L2v (p : SimulationParams) : ℝ :=
  selfLVal p.secondary_turns p.coil_radius p.wire_diameter

/-- Value `M` of `calculate_power_transfer` on the happy path. -/
def Mv (p : SimulationParams) : ℝ :=
  mutualVal p.primary_turns p.secondary_turns p.coil_radius p.coil_radius p.air_gap

/-- Value `k` of `calculate_power_transfer`. -/
def kv (p : SimulationParams) : ℝ :=
  calculate_coupling_coefficient (L1v p) (L2v p) (Mv p)

/-- Value `omega` of `calculate_power_transfer`. -/
def omegav (p : SimulationParams) : ℝ := 2 * Real.pi * p.frequency

/-- Value `R1_dc` of `calculate_power_transfer`. -/
def R1dcv (p : SimulationParams) : ℝ :=
  resistivity_copper * (2 * Real.pi * p.coil_radius * (p.primary_turns : ℝ)) /
    (Real.pi * (p.wire_diameter / 2) ^ 2)

/-- Value `R2_dc` of `calculate_power_transfer`. -/
def R2dcv (p : SimulationParams) : ℝ :=
  resistivity_copper * (2 * Real.pi * p.coil_radius * (p.secondary_turns : ℝ)) /
    (Real.pi * (p.wire_diameter / 2) ^ 2)

/-- Value `R1_ac` of `calculate_power_transfer` on the happy path. -/
def R1acv (p : SimulationParams) : ℝ :=
  acResistanceVal (R1dcv p) p.wire_diameter p.frequency

/-- Value `R2_ac` of `calculate_power_transfer` on the happy path. -/
def R2acv (p : SimulationParams) : ℝ :=
  acResistanceVal (R2dcv p) p.wire_diameter p.frequency

/-- Value `Q1` of `calculate_power_transfer`. -/
def Q1v (p : SimulationParams) : ℝ :=
  if 0 < R1acv p then omegav p * L1v p / R1acv p else 0

/-- Value `Q2` of `calculate_power_transfer`. -/
def Q2v (p : SimulationParams) : ℝ :=
  if 0 < R2acv p then omegav p * L2v p / R2acv p else 0

/-- Value `kQ_product` of `calculate_power_transfer`. -/
def kQv (p : SimulationParams) : ℝ := kv p ^ 2 * Q1v p * Q2v p

/-- Value `efficiency_max` of `calculate_power_transfer`. -/
def etamaxv (p : SimulationParams) : ℝ :=
  if 0 < kQv p then kQv p / (1 + Real.sqrt (1 + kQv p)) ^ 2 else 0

/-- Value `efficiency` of `calculate_power_transfer` (reflected-impedance analysis). -/
def effv (p : SimulationParams) : ℝ :=
  if 0 < (omegav p * Mv p) ^ 2 ∧ 0 < R2acv p + p.load_resistance then
    (omegav p * Mv p) ^ 2 / (R2acv p + p.load_resistance) /
        (R1acv p + (omegav p * Mv p) ^ 2 / (R2acv p + p.load_resistance)) *
      (p.load_resistance / (R2acv p + p.load_resistance))
  else 0

/-- Value `optimal_load` of `calculate_power_transfer`. -/
def optloadv (p : SimulationParams) : ℝ :=
  if 0 < kQv p then R2acv p * Real.sqrt (1 + kQv p) else 0

/-- Value `k_critical` of `calculate_power_transfer`. -/
def kcritv (p : SimulationParams) : ℝ :=
  if 0 < Q1v p ∧ 0 < Q2v p then 1 / Real.sqrt (Q1v p * Q2v p) else 0

/-- Value `coupling_status` of `calculate_power_transfer`. -/
def statusv (p : SimulationParams) : String :=
  if kcritv p < kv p then "over-coupled"
  else if |kv p - kcritv p| < 0.01 then "critically-coupled"
  else "under-coupled"

/-- The full record returned by `calculate_power_transfer` on the happy path. -/
def resultVal (p : SimulationParams) : PowerTransferResult where
  primary_uH := L1v p * 1e6
  secondary_uH := L2v p * 1e6
  mutual_uH := Mv p * 1e6
  coefficient := kv p
  critical_k := kcritv p
  status := statusv p
  capacitor_primary_nF := resCapVal (L1v p) p.frequency * 1e9
  capacitor_secondary_nF := resCapVal (L2v p) p.frequency * 1e9
  Q1 := Q1v p
  Q2 := Q2v p
  percent := effv p * 100
  max_percent := etamaxv p * 100
  optimal_load_ohm := optloadv p
  power_input_W := p.input_power
  power_output_W := p.input_power * effv p
  power_loss_W := p.input_power - p.input_power * effv p
  primary_A := if 0 < p.input_voltage then p.input_power / p.input_voltage else 0
  secondary_A :=
    if 0 < p.load_resistance ∧ 0 < p.input_power * effv p then
      Real.sqrt (p.input_power * effv p / p.load_resistance)
    else 0
  primary_dc_mOhm := R1dcv p * 1000
  secondary_dc_mOhm := R2dcv p * 1000
  primary_ac_mOhm := R1acv p * 1000
  secondary_ac_mOhm := R2acv p * 1000
  skin_depth_mm := skinDepthVal p.frequency * 1000
  resistance_quotient := if 0 < R1dcv p then R1acv p / R1dcv p else 1

lemma selfLVal_pos {t : ℤ} {r d : ℝ} (ht : 0 < t) (hr : 0 < r) (hd : 0 < d) :
    0 < selfLVal t r d := by
  have htR : (0 : ℝ) < (t : ℝ) := by exact_mod_cast ht
  have hl : 0 < (t : ℝ) * d := mul_pos htR hd
  have hden : 0 < 1 + 0.9 * r / ((t : ℝ) * d) := by positivity
  unfold selfLVal
  have h1 : 0 < mu_0 * (t : ℝ) ^ 2 * (Real.pi * r ^ 2) :=
    mul_pos (mul_pos mu_0_pos (by positivity)) (by positivity)
  exact div_pos (mul_pos h1 (by positivity)) hl

lemma mutualVal_denom_pos {r1 r2 dist : ℝ} (hr1 : 0 < r1) :
    0 < (r1 ^ 2 + r2 ^ 2) / 2 + dist ^ 2 := by positivity

lemma mutualVal_pos {n1 n2 : ℤ} {r1 r2 dist : ℝ}
    (h1 : 0 < n1) (h2 : 0 < n2) (hr1 : 0 < r1) (hr2 : 0 < r2) :
    0 < mutualVal n1 n2 r1 r2 dist := by
  have h1R : (0 : ℝ) < (n1 : ℝ) := by exact_mod_cast h1
  have h2R : (0 : ℝ) < (n2 : ℝ) := by exact_mod_cast h2
  unfold mutualVal
  have hb : 0 < (r1 ^ 2 + r2 ^ 2) / 2 + dist ^ 2 := mutualVal_denom_pos hr1
  have hpow : 0 < ((r1 ^ 2 + r2 ^ 2) / 2 + dist ^ 2) ^ (1.5 : ℝ) :=
    Real.rpow_pos_of_pos hb _
  have hnum : 0 < mu_0 * Real.pi * (n1 : ℝ) * (n2 : ℝ) * (r1 * r1 * r2 * r2) := by
    have : 0 < r1 * r1 * r2 * r2 := by positivity
    have hm : 0 < mu_0 * Real.pi := mul_pos mu_0_pos Real.pi_pos
    exact mul_pos (mul_pos (mul_pos hm h1R) h2R) this
  exact div_pos hnum (by positivity)

lemma R1dcv_pos {p : SimulationParams} (h : Valid p) : 0 < R1dcv p := by
  obtain ⟨h1, h2, hr, hd, hf⟩ := h
  have h1R : (0 : ℝ) < (p.primary_turns : ℝ) := by exact_mod_cast h1
  unfold R1dcv
  have hnum : 0 < resistivity_copper * (2 * Real.pi * p.coil_radius * (p.primary_turns : ℝ)) :=
    mul_pos resistivity_copper_pos (by positivity)
  exact div_pos hnum (by positivity)

lemma R2dcv_pos {p : SimulationParams} (h : Valid p) : 0 < R2dcv p := by
  obtain ⟨h1, h2, hr, hd, hf⟩ := h
  have h2R : (0 : ℝ) < (p.secondary_turns : ℝ) := by exact_mod_cast h2
  unfold R2dcv
  have hnum : 0 < resistivity_copper * (2 * Real.pi * p.coil_radius * (p.secondary_turns : ℝ)) :=
    mul_pos resistivity_copper_pos (by positivity)
  exact div_pos hnum (by positivity)

/-- On a domain-valid input every guard of the pipeline passes and
`calculate_power_transfer` returns exactly the `resultVal` record. -/
lemma calculate_power_transfer_eq {p : SimulationParams} (h : Valid p) :
    calculate_power_transfer p = some (resultVal p) := by
  obtain ⟨h1, h2, hr, hd, hf⟩ := h
  have hL1 : 0 < L1v p := selfLVal_pos h1 hr hd
  have hL2 : 0 < L2v p := selfLVal_pos h2 hr hd
  have homega : 0 < 2 * Real.pi * p.frequency := by positivity
  have hwa : 0 < Real.pi * (p.wire_diameter / 2) ^ 2 := by positivity
  have hc1 : (2 * Real.pi * p.frequency) ^ 2 * L1v p ≠ 0 :=
    ne_of_gt (mul_pos (by positivity) hL1)
  have hc2 : (2 * Real.pi * p.frequency) ^ 2 * L2v p ≠ 0 :=
    ne_of_gt (mul_pos (by positivity) hL2)
  unfold calculate_power_transfer
  rw [show calculate_self_inductance p.primary_turns p.coil_radius p.wire_diameter =
        some (L1v p) from calculate_self_inductance_eq h1 hr hd,
      show calculate_self_inductance p.secondary_turns p.coil_radius p.wire_diameter =
        some (L2v p) from calculate_self_inductance_eq h2 hr hd,
      show calculate_mutual_inductance p.primary_turns p.secondary_turns p.coil_radius
          p.coil_radius p.air_gap = some (Mv p) from
        calculate_mutual_inductance_eq (mutualVal_denom_pos hr)]
  dsimp only [Option.bind_eq_bind, Option.some_bind]
  rw [show calculate_resonant_capacitance (L1v p) p.frequency =
        some (resCapVal (L1v p) p.frequency) from calculate_resonant_capacitance_eq hc1]
  dsimp only [Option.bind_eq_bind, Option.some_bind]
  rw [show calculate_resonant_capacitance (L2v p) p.frequency =
        some (resCapVal (L2v p) p.frequency) from calculate_resonant_capacitance_eq hc2]
  dsimp only [Option.bind_eq_bind, Option.some_bind]
  rw [if_neg (ne_of_gt hwa)]
  rw [show calculate_ac_resistance
        (resistivity_copper * (2 * Real.pi * p.coil_radius * (p.primary_turns : ℝ)) /
          (Real.pi * (p.wire_diameter / 2) ^ 2)) p.wire_diameter p.frequency =
        some (R1acv p, skinDepthVal p.frequency) from calculate_ac_resistance_eq hf _ _]
  dsimp only [Option.bind_eq_bind, Option.some_bind]
  rw [show calculate_ac_resistance
        (resistivity_copper * (2 * Real.pi * p.coil_radius * (p.secondary_turns : ℝ)) /
          (Real.pi * (p.wire_diameter / 2) ^ 2)) p.wire_diameter p.frequency =
        some (R2acv p, skinDepthVal p.frequency) from calculate_ac_resistance_eq hf _ _]
  dsimp only [Option.bind_eq_bind, Option.some_bind]
  rfl

/-! ## Concrete example input

The worked example of §8 of the spec (also the pydantic defaults):
20/20 turns, 25 mm radius, 1 mm wire, 5 mm gap, 200 kHz, 10 W, 24 V, 10 Ω. -/

/-- The spec's example / default parameter record. -/
def P0 : SimulationParams where
  primary_turns := 20
  secondary_turns := 20
  coil_radius := 0.025
  wire_diameter := 0.001
  air_gap := 0.005
  frequency := 200000
  input_power := 10
  input_voltage := 24
  load_resistance := 10

lemma Valid_P0 : Valid P0 := by
  refine ⟨by decide, by decide, ?_, ?_, ?_⟩ <;> · show (0 : ℝ) < _; norm_num [P0]

/-! ## Claim C5: degenerate denominators

The spec claims the core returns the fallback value 0 when a formula
denominator is zero.  The source has no such fallback in
`calculate_self_inductance` or `calculate_resonant_capacitance`: the division
raises `ZeroDivisionError` (modelled here as `none`). -/

/-- Claim C5, counterexample: at `turns = 0` (zero coil length) the
self-inductance computation raises instead of producing the fallback `0`, and
at `inductance = 0` the resonant-capacitance computation raises as well. -/
theorem c5_zero_denominator_counterexample :
    calculate_self_inductance 0 0.025 0.001 = none ∧
      calculate_self_inductance 0 0.025 0.001 ≠ some 0 ∧
      calculate_resonant_capacitance 0 200000 = none := by
  have h1 : calculate_self_inductance 0 0.025 0.001 = none := by
    unfold calculate_self_inductance
    norm_num
  have h2 : calculate_resonant_capacitance 0 200000 = none := by
    unfold calculate_resonant_capacitance
    norm_num
  exact ⟨h1, by rw [h1]; exact fun hc => Option.noConfusion hc, h2⟩

/-- Claim C5, amended: on every input with a zero formula denominator (zero
coil length `turns * wire_diameter` in the self-inductance formula; zero
`omega^2 * inductance`, i.e. zero inductance or zero frequency, in the
resonant-capacitance formula) the core raises a division-by-zero error —
modelled as returning `none` — instead of returning the fallback value 0. -/
theorem c5_zero_denominator_raises (t : ℤ) (r d L f : ℝ)
    (h1 : (t : ℝ) * d = 0) (h2 : (2 * Real.pi * f) ^ 2 * L = 0) :
    calculate_self_inductance t r d = none ∧
      calculate_resonant_capacitance L f = none := by
  constructor
  · unfold calculate_self_inductance
    rw [if_pos h1]
  · unfold calculate_resonant_capacitance
    rw [if_pos h2]

/-- Witness for `c5_zero_denominator_raises` at `turns = 0`, `inductance = 0`. -/
theorem c5_zero_denominator_raises_witness :
    calculate_self_inductance 0 0.025 0.001 = none ∧
      calculate_resonant_capacitance 0 200000 = none :=
  c5_zero_denominator_raises 0 0.025 0.001 0 200000 (by norm_num) (by norm_num)

/-! ## Claim C2: energy conservation -/

/-- Claim C2: whenever `calculate_power_transfer` produces a result record,
`power_output_W + power_loss_W = power_input_W`, and `power_input_W` is the
supplied `input_power` unchanged (never recomputed from voltage or current). -/
theorem c2_energy_conservation (p : SimulationParams) (r : PowerTransferResult)
    (h : calculate_power_transfer p = some r) :
    r.power_output_W + r.power_loss_W = r.power_input_W ∧
      r.power_input_W = p.input_power := by
  unfold calculate_power_transfer at h
  simp only [Option.bind_eq_bind] at h
  rw [Option.bind_eq_some] at h
  obtain ⟨L1, hL1, h⟩ := h
  rw [Option.bind_eq_some] at h
  obtain ⟨L2, hL2, h⟩ := h
  rw [Option.bind_eq_some] at h
  obtain ⟨M, hM, h⟩ := h
  try dsimp only at h
  rw [Option.bind_eq_some] at h
  obtain ⟨C1, hC1, h⟩ := h
  rw [Option.bind_eq_some] at h
  obtain ⟨C2, hC2, h⟩ := h
  try dsimp only at h
  split at h
  · exact Option.noConfusion h
  rw [Option.bind_eq_some] at h
  obtain ⟨⟨R1_ac, skin_depth⟩, hac1, h⟩ := h
  try dsimp only at h
  rw [Option.bind_eq_some] at h
  obtain ⟨⟨R2_ac, sd2⟩, hac2, h⟩ := h
  try dsimp only at h
  rw [Option.some_inj] at h
  subst h
  exact ⟨by ring, rfl⟩

/-- Witness for `c2_energy_conservation` at the spec's example input. -/
theorem c2_energy_conservation_witness :
    (resultVal P0).power_output_W + (resultVal P0).power_loss_W = (resultVal P0).power_input_W ∧
      (resultVal P0).power_input_W = P0.input_power :=
  c2_energy_conservation P0 (resultVal P0) (calculate_power_transfer_eq Valid_P0)

/-! ## Claim C7: coupling-status classification -/

/-- Classification pattern of the source's `coupling_status` expression. -/
lemma status_pattern (k kc : ℝ) :
    ((if kc < k then "over-coupled"
        else if |k - kc| < 0.01 then "critically-coupled"
        else "under-coupled") = "over-coupled" ↔ kc < k) ∧
      (k ≤ kc →
        (((if kc < k then "over-coupled"
            else if |k - kc| < 0.01 then "critically-coupled"
            else "under-coupled") = "critically-coupled" ↔ |k - kc| < 0.01) ∧
          ((if kc < k then "over-coupled"
            else if |k - kc| < 0.01 then "critically-coupled"
            else "under-coupled") = "under-coupled" ↔ ¬ |k - kc| < 0.01))) ∧
      (kc < k ∧ |k - kc| < 0.01 →
        (if kc < k then "over-coupled"
          else if |k - kc| < 0.01 then "critically-coupled"
          else "under-coupled") = "over-coupled") := by
  by_cases h1 : kc < k
  · simp only [if_pos h1]
    exact ⟨iff_of_true trivial h1, fun hle => absurd h1 (not_lt.mpr hle), fun _ => trivial⟩
  · simp only [if_neg h1]
    by_cases h2 : |k - kc| < 0.01
    · simp only [if_pos h2]
      exact ⟨iff_of_false (by decide) h1,
        fun _ => ⟨iff_of_true trivial h2, iff_of_false (by decide) (not_not_intro h2)⟩,
        fun hc => absurd hc.1 h1⟩
    · simp only [if_neg h2]
      exact ⟨iff_of_false (by decide) h1,
        fun _ => ⟨iff_of_false (by decide) h2, iff_of_true trivial h2⟩,
        fun hc => absurd hc.1 h1⟩

/-- Claim C7: in any produced result, the status is `"over-coupled"` iff
`k > k_critical`; the critically-coupled test is consulted only when
`k ≤ k_critical`, where status is `"critically-coupled"` iff
`|k - k_critical| < 0.01` and `"under-coupled"` otherwise; `k_critical` is
`1 / sqrt(Q1 * Q2)` when both quality factors are positive and `0` otherwise.
In particular an input with `k > k_critical` and `|k - k_critical| < 0.01` is
classified `"over-coupled"`. -/
theorem c7_coupling_status (p : SimulationParams) (r : PowerTransferResult)
    (h : calculate_power_transfer p = some r) :
    (r.critical_k = if 0 < r.Q1 ∧ 0 < r.Q2 then 1 / Real.sqrt (r.Q1 * r.Q2) else 0) ∧
      (r.status = "over-coupled" ↔ r.critical_k < r.coefficient) ∧
      (r.coefficient ≤ r.critical_k →
        ((r.status = "critically-coupled" ↔ |r.coefficient - r.critical_k| < 0.01) ∧
          (r.status = "under-coupled" ↔ ¬ |r.coefficient - r.critical_k| < 0.01))) ∧
      (r.critical_k < r.coefficient ∧ |r.coefficient - r.critical_k| < 0.01 →
        r.status = "over-coupled") := by
  unfold calculate_power_transfer at h
  simp only [Option.bind_eq_bind] at h
  rw [Option.bind_eq_some] at h
  obtain ⟨L1, hL1, h⟩ := h
  rw [Option.bind_eq_some] at h
  obtain ⟨L2, hL2, h⟩ := h
  rw [Option.bind_eq_some] at h
  obtain ⟨M, hM, h⟩ := h
  try dsimp only at h
  rw [Option.bind_eq_some] at h
  obtain ⟨C1, hC1, h⟩ := h
  rw [Option.bind_eq_some] at h
  obtain ⟨C2, hC2, h⟩ := h
  try dsimp only at h
  split at h
  · exact Option.noConfusion h
  rw [Option.bind_eq_some] at h
  obtain ⟨⟨R1_ac, skin_depth⟩, hac1, h⟩ := h
  try dsimp only at h
  rw [Option.bind_eq_some] at h
  obtain ⟨⟨R2_ac, sd2⟩, hac2, h⟩ := h
  try dsimp only at h
  rw [Option.some_inj] at h
  subst h
  dsimp only
  exact ⟨rfl, (status_pattern _ _).1, (status_pattern _ _).2.1, (status_pattern _ _).2.2⟩

/-- Witness for `c7_coupling_status` at the spec's example input. -/
theorem c7_coupling_status_witness :
    ((resultVal P0).critical_k =
        if 0 < (resultVal P0).Q1 ∧ 0 < (resultVal P0).Q2 then
          1 / Real.sqrt ((resultVal P0).Q1 * (resultVal P0).Q2) else 0) ∧
      ((resultVal P0).status = "over-coupled" ↔
        (resultVal P0).critical_k < (resultVal P0).coefficient) ∧
      ((resultVal P0).coefficient ≤ (resultVal P0).critical_k →
        (((resultVal P0).status = "critically-coupled" ↔
            |(resultVal P0).coefficient - (resultVal P0).critical_k| < 0.01) ∧
          ((resultVal P0).status = "under-coupled" ↔
            ¬ |(resultVal P0).coefficient - (resultVal P0).critical_k| < 0.01))) ∧
      ((resultVal P0).critical_k < (resultVal P0).coefficient ∧
          |(resultVal P0).coefficient - (resultVal P0).critical_k| < 0.01 →
        (resultVal P0).status = "over-coupled") :=
  c7_coupling_status P0 (resultVal P0) (calculate_power_transfer_eq Valid_P0)

/-! ## Claims C4, C8, C10: the skin-effect model -/

/-- The two-branch piecewise AC-resistance model exactly as the claim states
it: `skin_depth = sqrt(rho / (pi * f * mu0))` with `rho = 1.68e-8`,
`ratio = (wire_diameter/2) / skin_depth`, strict threshold `ratio > 2.0`,
thick branch `R_dc * (wire_radius / (2 * skin_depth))`, and thin branch
(boundary `ratio = 2.0` included) `R_dc * (1 + ratio^4 / 48)`. -/
def acResistanceSpec (R_dc wire_diameter frequency : ℝ) : ℝ × ℝ :=
  let skin_depth := Real.sqrt (1.68e-8 / (Real.pi * frequency * (4 * Real.pi * 1e-7)))
  let ratio := wire_diameter / 2 / skin_depth
  if 2.0 < ratio then (R_dc * (wire_diameter / 2 / (2 * skin_depth)), skin_depth)
  else (R_dc * (1 + ratio ^ 4 / 48), skin_depth)

/-- Claim C4: `calculate_ac_resistance` implements exactly the claim's
two-branch piecewise model with the strict `> 2.0` comparison; in particular
at `ratio = 2.0` exactly, the thin-wire branch `R_dc * (1 + 2^4/48)` applies. -/
theorem c4_ac_resistance_piecewise (dc d f : ℝ) (hf : 0 < f) :
    calculate_ac_resistance dc d f = some (acResistanceSpec dc d f) ∧
      (d / 2 / Real.sqrt (1.68e-8 / (Real.pi * f * (4 * Real.pi * 1e-7))) = 2 →
        calculate_ac_resistance dc d f =
          some (dc * (1 + (2 : ℝ) ^ 4 / 48),
            Real.sqrt (1.68e-8 / (Real.pi * f * (4 * Real.pi * 1e-7))))) := by
  rw [calculate_ac_resistance_eq hf dc d]
  constructor
  · unfold acResistanceVal acResistanceSpec skinDepthVal mu_0 resistivity_copper
    dsimp only
    split_ifs <;> rfl
  · intro hb
    unfold acResistanceVal skinDepthVal mu_0 resistivity_copper
    dsimp only
    rw [hb]
    rw [if_neg (by norm_num)]

lemma acResistanceVal_ge (dc d f : ℝ) (hdc : 0 ≤ dc) : dc ≤ acResistanceVal dc d f := by
  unfold acResistanceVal
  dsimp only
  have hδ0 : 0 ≤ skinDepthVal f := Real.sqrt_nonneg _
  split_ifs with hc
  · rcases eq_or_lt_of_le hδ0 with he | hpos
    · rw [← he, div_zero] at hc
      norm_num at hc
    · rw [show (2.0 : ℝ) = 2 by norm_num] at hc
      have h2δ : 2 * skinDepthVal f < d / 2 := (lt_div_iff₀ hpos).mp hc
      have h1 : 1 < d / 2 / (2 * skinDepthVal f) :=
        (one_lt_div (by positivity)).mpr (by linarith)
      exact le_mul_of_one_le_right hdc h1.le
  · have hq : 0 ≤ (d / 2 / skinDepthVal f) ^ 4 := by positivity
    exact le_mul_of_one_le_right hdc (by linarith)

/-- Claim C8: for positive DC resistance, wire diameter and frequency, the
skin-effect-corrected AC resistance is at least the DC resistance in both
branches of the piecewise model. -/
theorem c8_ac_ge_dc (dc d f : ℝ) (hdc : 0 < dc) (hd : 0 < d) (hf : 0 < f) :
    ∃ R_ac δ, calculate_ac_resistance dc d f = some (R_ac, δ) ∧ dc ≤ R_ac :=
  ⟨acResistanceVal dc d f, skinDepthVal f, calculate_ac_resistance_eq hf dc d,
    acResistanceVal_ge dc d f hdc.le⟩

/-- Witness for `c8_ac_ge_dc` at 1 Ω, 1 mm wire, 200 kHz. -/
theorem c8_ac_ge_dc_witness :
    ∃ R_ac δ, calculate_ac_resistance 1 0.001 200000 = some (R_ac, δ) ∧ (1 : ℝ) ≤ R_ac :=
  c8_ac_ge_dc 1 0.001 200000 (by norm_num) (by norm_num) (by norm_num)

lemma acResistanceVal_smul (c R d f : ℝ) :
    acResistanceVal (c * R) d f = c * acResistanceVal R d f := by
  unfold acResistanceVal
  dsimp only
  split_ifs <;> ring

/-- Claim C10: `calculate_ac_resistance` is homogeneous of degree 1 in its
DC-resistance argument with the skin depth unchanged; consequently, in any
result of `calculate_power_transfer` on a domain-valid input, the single
reported `resistance_ratio` (`resistance_quotient` here) relates the DC and AC
resistances of both coils at once. -/
theorem c10_resistance_scaling (c R d f : ℝ) (hc : 0 ≤ c) (p : SimulationParams)
    (h1 : 0 < p.primary_turns) (h2 : 0 < p.secondary_turns) (hr : 0 < p.coil_radius)
    (hd : 0 < p.wire_diameter) (hf : 0 < p.frequency) :
    calculate_ac_resistance (c * R) d f =
      Option.map (fun q => (c * q.1, q.2)) (calculate_ac_resistance R d f) ∧
      ∃ r, calculate_power_transfer p = some r ∧
        r.resistance_quotient * r.primary_dc_mOhm = r.primary_ac_mOhm ∧
        r.resistance_quotient * r.secondary_dc_mOhm = r.secondary_ac_mOhm := by
  have hv : Valid p := ⟨h1, h2, hr, hd, hf⟩
  constructor
  · unfold calculate_ac_resistance
    split_ifs with g1 g2
    · rfl
    · rfl
    · dsimp only
      split_ifs with g3
      · simp only [Option.map_some', Option.some.injEq, Prod.mk.injEq]
        exact ⟨mul_assoc c R _, trivial⟩
      · simp only [Option.map_some', Option.some.injEq, Prod.mk.injEq]
        exact ⟨mul_assoc c R _, trivial⟩
  · refine ⟨resultVal p, calculate_power_transfer_eq hv, ?_⟩
    have hdc1 : 0 < R1dcv p := R1dcv_pos hv
    have hdc2 : 0 < R2dcv p := R2dcv_pos hv
    have hF1 : R1acv p = R1dcv p * acResistanceVal 1 p.wire_diameter p.frequency := by
      unfold R1acv
      conv_lhs => rw [show R1dcv p = R1dcv p * 1 by ring]
      exact acResistanceVal_smul (R1dcv p) 1 _ _
    have hF2 : R2acv p = R2dcv p * acResistanceVal 1 p.wire_diameter p.frequency := by
      unfold R2acv
      conv_lhs => rw [show R2dcv p = R2dcv p * 1 by ring]
      exact acResistanceVal_smul (R2dcv p) 1 _ _
    unfold resultVal
    dsimp only
    rw [if_pos hdc1, hF1, hF2]
    constructor
    · field_simp
      ring
    · field_simp
      ring

/-- Witness for `c10_resistance_scaling` at `c = 2`, `R = 1`, 1 mm wire,
200 kHz, and the spec's example input. -/
theorem c10_resistance_scaling_witness :
    calculate_ac_resistance (2 * 1) 0.001 200000 =
      Option.map (fun q => (2 * q.1, q.2)) (calculate_ac_resistance 1 0.001 200000) ∧
      ∃ r, calculate_power_transfer P0 = some r ∧
        r.resistance_quotient * r.primary_dc_mOhm = r.primary_ac_mOhm ∧
        r.resistance_quotient * r.secondary_dc_mOhm = r.secondary_ac_mOhm :=
  c10_resistance_scaling 2 1 0.001 200000 (by norm_num) P0
    (by decide) (by decide) (by norm_num [P0]) (by norm_num [P0]) (by norm_num [P0])

/-- Witness for `c4_ac_resistance_piecewise` at 1 Ω, 1 mm wire, 200 kHz. -/
theorem c4_ac_resistance_piecewise_witness :
    calculate_ac_resistance 1 0.001 200000 = some (acResistanceSpec 1 0.001 200000) ∧
      ((0.001 : ℝ) / 2 / Real.sqrt (1.68e-8 / (Real.pi * 200000 * (4 * Real.pi * 1e-7))) = 2 →
        calculate_ac_resistance 1 0.001 200000 =
          some (1 * (1 + (2 : ℝ) ^ 4 / 48),
            Real.sqrt (1.68e-8 / (Real.pi * 200000 * (4 * Real.pi * 1e-7))))) :=
  c4_ac_resistance_piecewise 1 0.001 200000 (by norm_num)

/-! ## Claim C6: totality on domain-valid inputs -/

/-- Claim C6: on every domain-valid input, every division of the pipeline has
a nonzero denominator and every square-root argument is nonnegative (no guard
fires), so `calculate_power_transfer` produces a complete result record. -/
theorem c6_no_fatal_failure (p : SimulationParams)
    (h1 : 0 < p.primary_turns) (h2 : 0 < p.secondary_turns) (hr : 0 < p.coil_radius)
    (hd : 0 < p.wire_diameter) (hf : 0 < p.frequency) (hgap : 0 ≤ p.air_gap)
    (hP : 0 ≤ p.input_power) (hV : 0 < p.input_voltage) (hload : 0 ≤ p.load_resistance) :
    ∃ r, calculate_power_transfer p = some r :=
  ⟨resultVal p, calculate_power_transfer_eq ⟨h1, h2, hr, hd, hf⟩⟩

/-- Witness for `c6_no_fatal_failure` at the spec's example input. -/
theorem c6_no_fatal_failure_witness : ∃ r, calculate_power_transfer P0 = some r :=
  c6_no_fatal_failure P0 (by decide) (by decide) (by norm_num [P0]) (by norm_num [P0])
    (by norm_num [P0]) (by norm_num [P0]) (by norm_num [P0]) (by norm_num [P0])
    (by norm_num [P0])

/-! ## Claim C3: coupling decreases with the air gap -/

lemma mutualVal_strict_anti {n1 n2 : ℤ} {r1 r2 : ℝ} (h1 : 0 < n1) (h2 : 0 < n2)
    (hr1 : 0 < r1) (hr2 : 0 < r2) {g1 g2 : ℝ} (hg1 : 0 ≤ g1) (hlt : g1 < g2) :
    mutualVal n1 n2 r1 r2 g2 < mutualVal n1 n2 r1 r2 g1 := by
  have h1R : (0 : ℝ) < (n1 : ℝ) := by exact_mod_cast h1
  have h2R : (0 : ℝ) < (n2 : ℝ) := by exact_mod_cast h2
  unfold mutualVal
  have hnum : 0 < mu_0 * Real.pi * (n1 : ℝ) * (n2 : ℝ) * (r1 * r1 * r2 * r2) := by
    have hrr : 0 < r1 * r1 * r2 * r2 := by positivity
    exact mul_pos (mul_pos (mul_pos (mul_pos mu_0_pos Real.pi_pos) h1R) h2R) hrr
  have hb1 : 0 < (r1 ^ 2 + r2 ^ 2) / 2 + g1 ^ 2 := mutualVal_denom_pos hr1
  have hsq : g1 ^ 2 < g2 ^ 2 := by nlinarith
  have hblt : (r1 ^ 2 + r2 ^ 2) / 2 + g1 ^ 2 < (r1 ^ 2 + r2 ^ 2) / 2 + g2 ^ 2 := by linarith
  have hrpow : ((r1 ^ 2 + r2 ^ 2) / 2 + g1 ^ 2) ^ (1.5 : ℝ) <
      ((r1 ^ 2 + r2 ^ 2) / 2 + g2 ^ 2) ^ (1.5 : ℝ) :=
    Real.rpow_lt_rpow hb1.le hblt (by norm_num)
  have hp1 : 0 < 2 * ((r1 ^ 2 + r2 ^ 2) / 2 + g1 ^ 2) ^ (1.5 : ℝ) :=
    mul_pos two_pos (Real.rpow_pos_of_pos hb1 _)
  exact div_lt_div_of_pos_left hnum hp1 (by linarith)

lemma L1v_airgap (p : SimulationParams) (g : ℝ) : L1v { p with air_gap := g } = L1v p := rfl

lemma L2v_airgap (p : SimulationParams) (g : ℝ) : L2v { p with air_gap := g } = L2v p := rfl

lemma Mv_airgap (p : SimulationParams) (g : ℝ) :
    Mv { p with air_gap := g } =
      mutualVal p.primary_turns p.secondary_turns p.coil_radius p.coil_radius g := rfl

/-- Claim C3: with all other parameters fixed at domain-valid values, both the
mutual inductance and the coupling coefficient returned by
`calculate_power_transfer` strictly decrease as the air gap increases over
`[0, ∞)` — in particular both are well defined (`some`) at gap 0. -/
theorem c3_coupling_monotone (p : SimulationParams)
    (h1 : 0 < p.primary_turns) (h2 : 0 < p.secondary_turns) (hr : 0 < p.coil_radius)
    (hd : 0 < p.wire_diameter) (hf : 0 < p.frequency)
    (g1 g2 : ℝ) (hg1 : 0 ≤ g1) (hlt : g1 < g2) :
    ∃ r1 r2, calculate_power_transfer { p with air_gap := g1 } = some r1 ∧
      calculate_power_transfer { p with air_gap := g2 } = some r2 ∧
      r2.mutual_uH < r1.mutual_uH ∧ r2.coefficient < r1.coefficient := by
  have hv1 : Valid { p with air_gap := g1 } := ⟨h1, h2, hr, hd, hf⟩
  have hv2 : Valid { p with air_gap := g2 } := ⟨h1, h2, hr, hd, hf⟩
  have hM : mutualVal p.primary_turns p.secondary_turns p.coil_radius p.coil_radius g2 <
      mutualVal p.primary_turns p.secondary_turns p.coil_radius p.coil_radius g1 :=
    mutualVal_strict_anti h1 h2 hr hr hg1 hlt
  have hL1 : 0 < L1v p := selfLVal_pos h1 hr hd
  have hL2 : 0 < L2v p := selfLVal_pos h2 hr hd
  refine ⟨resultVal { p with air_gap := g1 }, resultVal { p with air_gap := g2 },
    calculate_power_transfer_eq hv1, calculate_power_transfer_eq hv2, ?_, ?_⟩
  · unfold resultVal
    dsimp only
    rw [Mv_airgap, Mv_airgap]
    exact mul_lt_mul_of_pos_right hM (by norm_num)
  · unfold resultVal
    dsimp only
    unfold kv calculate_coupling_coefficient
    rw [L1v_airgap, L2v_airgap, L1v_airgap, L2v_airgap, Mv_airgap, Mv_airgap]
    rw [if_pos ⟨hL1, hL2⟩, if_pos ⟨hL1, hL2⟩]
    have hsqrt : 0 < Real.sqrt (L1v p * L2v p) := Real.sqrt_pos.mpr (mul_pos hL1 hL2)
    exact (div_lt_div_iff_of_pos_right hsqrt).mpr hM

/-- Witness for `c3_coupling_monotone` at the spec's example geometry with
gaps 0 mm and 10 mm. -/
theorem c3_coupling_monotone_witness :
    ∃ r1 r2, calculate_power_transfer { P0 with air_gap := 0 } = some r1 ∧
      calculate_power_transfer { P0 with air_gap := 0.01 } = some r2 ∧
      r2.mutual_uH < r1.mutual_uH ∧ r2.coefficient < r1.coefficient :=
  c3_coupling_monotone P0 (by decide) (by decide) (by norm_num [P0]) (by norm_num [P0])
    (by norm_num [P0]) 0 0.01 (by norm_num) (by norm_num)

/-! ## Claim C9: the actual efficiency lies in `[0, 1)` -/

lemma R1acv_pos {p : SimulationParams} (hv : Valid p) : 0 < R1acv p :=
  lt_of_lt_of_le (R1dcv_pos hv) (acResistanceVal_ge _ _ _ (R1dcv_pos hv).le)

lemma R2acv_pos {p : SimulationParams} (hv : Valid p) : 0 < R2acv p :=
  lt_of_lt_of_le (R2dcv_pos hv) (acResistanceVal_ge _ _ _ (R2dcv_pos hv).le)

lemma Mv_pos {p : SimulationParams} (hv : Valid p) : 0 < Mv p :=
  mutualVal_pos hv.1 hv.2.1 hv.2.2.1 hv.2.2.1

lemma omegav_pos {p : SimulationParams} (hv : Valid p) : 0 < omegav p := by
  have hf := hv.2.2.2.2
  unfold omegav
  positivity

/-- On a domain-valid input with nonnegative load, the source's `efficiency`
expression satisfies the claimed range facts. -/
lemma effv_range {p : SimulationParams} (hv : Valid p) (hload : 0 ≤ p.load_resistance) :
    0 ≤ effv p ∧ effv p < 1 ∧ (p.load_resistance = 0 → effv p = 0) ∧
      (0 < p.load_resistance → 0 < effv p) := by
  have ha : 0 < R1acv p := R1acv_pos hv
  have hb : 0 < R2acv p := R2acv_pos hv
  have hw : 0 < (omegav p * Mv p) ^ 2 :=
    pow_pos (mul_pos (omegav_pos hv) (Mv_pos hv)) 2
  have hR2t : 0 < R2acv p + p.load_resistance := by linarith
  have hZ : 0 < (omegav p * Mv p) ^ 2 / (R2acv p + p.load_resistance) := div_pos hw hR2t
  have heq : effv p =
      (omegav p * Mv p) ^ 2 / (R2acv p + p.load_resistance) /
          (R1acv p + (omegav p * Mv p) ^ 2 / (R2acv p + p.load_resistance)) *
        (p.load_resistance / (R2acv p + p.load_resistance)) := by
    unfold effv
    rw [if_pos ⟨hw, hR2t⟩]
  have hetaP0 : 0 < (omegav p * Mv p) ^ 2 / (R2acv p + p.load_resistance) /
      (R1acv p + (omegav p * Mv p) ^ 2 / (R2acv p + p.load_resistance)) :=
    div_pos hZ (by linarith)
  have hetaP1 : (omegav p * Mv p) ^ 2 / (R2acv p + p.load_resistance) /
      (R1acv p + (omegav p * Mv p) ^ 2 / (R2acv p + p.load_resistance)) < 1 :=
    (div_lt_one (by linarith)).mpr (by linarith)
  have hetaS0 : 0 ≤ p.load_resistance / (R2acv p + p.load_resistance) :=
    div_nonneg hload hR2t.le
  have hetaS1 : p.load_resistance / (R2acv p + p.load_resistance) < 1 :=
    (div_lt_one hR2t).mpr (by linarith)
  refine ⟨?_, ?_, ?_, ?_⟩
  · rw [heq]
    exact mul_nonneg hetaP0.le hetaS0
  · rw [heq]
    nlinarith
  · intro h0
    rw [heq, h0]
    simp
  · intro hpos
    rw [heq]
    exact mul_pos hetaP0 (div_pos hpos hR2t)

/-- Claim C9: on every domain-valid input with nonnegative load, the computed
efficiency lies in `[0, 1)` (reported as a percentage in `[0, 100)`): it is 0
when the load resistance is 0 or when `omega * M = 0` (the latter never
happens on such inputs), strictly positive otherwise, and consequently
`0 ≤ power_output_W ≤ power_input_W` and `0 ≤ power_loss_W` whenever the
supplied input power is nonnegative. -/
theorem c9_efficiency_in_unit_interval (p : SimulationParams)
    (h1 : 0 < p.primary_turns) (h2 : 0 < p.secondary_turns) (hr : 0 < p.coil_radius)
    (hd : 0 < p.wire_diameter) (hf : 0 < p.frequency) (hload : 0 ≤ p.load_resistance) :
    ∃ r, calculate_power_transfer p = some r ∧
      0 ≤ r.percent ∧ r.percent < 100 ∧
      (p.load_resistance = 0 ∨ 2 * Real.pi * p.frequency * (r.mutual_uH / 1e6) = 0 →
        r.percent = 0) ∧
      (p.load_resistance ≠ 0 → 0 < r.percent ∧ r.percent < 100) ∧
      (0 ≤ p.input_power →
        0 ≤ r.power_output_W ∧ r.power_output_W ≤ r.power_input_W ∧ 0 ≤ r.power_loss_W) := by
  have hv : Valid p := ⟨h1, h2, hr, hd, hf⟩
  obtain ⟨he0, he1, hez, hep⟩ := effv_range hv hload
  refine ⟨resultVal p, calculate_power_transfer_eq hv, ?_⟩
  unfold resultVal
  dsimp only
  have hMuH : Mv p * 1e6 / 1e6 = Mv p := by
    field_simp
  refine ⟨by positivity, by linarith, ?_, ?_, ?_⟩
  · rintro (h0 | h0)
    · rw [hez h0]
      ring
    · exfalso
      rw [hMuH] at h0
      have : 0 < 2 * Real.pi * p.frequency * Mv p :=
        mul_pos (by positivity) (Mv_pos hv)
      exact absurd h0 (ne_of_gt this)
  · intro hne
    have hpos : 0 < p.load_resistance := lt_of_le_of_ne hload (Ne.symm hne)
    constructor
    · have := hep hpos
      positivity
    · linarith
  · intro hP
    refine ⟨mul_nonneg hP he0, ?_, ?_⟩
    · calc p.input_power * effv p ≤ p.input_power * 1 :=
        mul_le_mul_of_nonneg_left he1.le hP
      _ = p.input_power := mul_one _
    · nlinarith

/-- Witness for `c9_efficiency_in_unit_interval` at the spec's example input. -/
theorem c9_efficiency_in_unit_interval_witness :
    ∃ r, calculate_power_transfer P0 = some r ∧
      0 ≤ r.percent ∧ r.percent < 100 ∧
      (P0.load_resistance = 0 ∨ 2 * Real.pi * P0.frequency * (r.mutual_uH / 1e6) = 0 →
        r.percent = 0) ∧
      (P0.load_resistance ≠ 0 → 0 < r.percent ∧ r.percent < 100) ∧
      (0 ≤ P0.input_power →
        0 ≤ r.power_output_W ∧ r.power_output_W ≤ r.power_input_W ∧ 0 ≤ r.power_loss_W) :=
  c9_efficiency_in_unit_interval P0 (by decide) (by decide) (by norm_num [P0])
    (by norm_num [P0]) (by norm_num [P0]) (by norm_num [P0])

/-! ## Claim C1: efficiency is maximised exactly at the optimal load

Pure algebra: with `a = R1_ac`, `b = R2_ac`, `w = (omega*M)^2`, `RL` the load
and `s = sqrt(1 + w/(a*b))`, the source's load-dependent efficiency differs
from its theoretical maximum `kQ/(1+s)^2` by
`(s-1)*(RL - b*s)^2 / ((1+s)*(b*s^2+RL)*(b+RL))`, a nonnegative quantity that
vanishes exactly at `RL = b*s`, the source's `optimal_load`. -/
lemma eta_core (a b w RL : ℝ) (ha : 0 < a) (hb : 0 < b) (hw : 0 < w) (hRL : 0 ≤ RL) :
    w / (b + RL) / (a + w / (b + RL)) * (RL / (b + RL)) ≤
        w / (a * b) / (1 + Real.sqrt (1 + w / (a * b))) ^ 2 ∧
      (w / (b + RL) / (a + w / (b + RL)) * (RL / (b + RL)) =
          w / (a * b) / (1 + Real.sqrt (1 + w / (a * b))) ^ 2 ↔
        RL = b * Real.sqrt (1 + w / (a * b))) := by
  have hab : 0 < a * b := mul_pos ha hb
  have hkQ : 0 < w / (a * b) := div_pos hw hab
  set s := Real.sqrt (1 + w / (a * b)) with hs_def
  have hs2 : s ^ 2 = 1 + w / (a * b) := Real.sq_sqrt (by linarith)
  have hs1 : 1 < s := by
    rw [hs_def]
    calc (1 : ℝ) = Real.sqrt 1 := Real.sqrt_one.symm
      _ < Real.sqrt (1 + w / (a * b)) := Real.sqrt_lt_sqrt (by norm_num) (by linarith)
  have hs2m1 : 0 < s ^ 2 - 1 := by linarith
  have hw_eq : w = a * b * (s ^ 2 - 1) := by
    rw [hs2]
    field_simp
  have hbRL : 0 < b + RL := by linarith
  have hbs2RL : 0 < b * s ^ 2 + RL := by nlinarith
  have hs1' : (0 : ℝ) < 1 + s := by linarith
  have hkey : w / (a * b) / (1 + s) ^ 2 -
      w / (b + RL) / (a + w / (b + RL)) * (RL / (b + RL)) =
      (s - 1) * (RL - b * s) ^ 2 / ((1 + s) * (b * s ^ 2 + RL) * (b + RL)) := by
    rw [hw_eq]
    have hZden2 : a + a * b * (s ^ 2 - 1) / (b + RL) ≠ 0 :=
      ne_of_gt (add_pos_of_pos_of_nonneg ha (div_nonneg (by nlinarith) hbRL.le))
    field_simp
    ring
  have hdpos : 0 < (1 + s) * (b * s ^ 2 + RL) * (b + RL) :=
    mul_pos (mul_pos hs1' hbs2RL) hbRL
  have hdiff : 0 ≤ (s - 1) * (RL - b * s) ^ 2 / ((1 + s) * (b * s ^ 2 + RL) * (b + RL)) :=
    div_nonneg (mul_nonneg (by linarith) (sq_nonneg _)) hdpos.le
  refine ⟨by linarith, ?_, ?_⟩
  · intro heq
    have h0 : (s - 1) * (RL - b * s) ^ 2 / ((1 + s) * (b * s ^ 2 + RL) * (b + RL)) = 0 := by
      rw [← hkey, heq]
      ring
    rw [div_eq_zero_iff] at h0
    rcases h0 with h0 | h0
    · rcases mul_eq_zero.mp h0 with h0 | h0
      · linarith
      · have := pow_eq_zero_iff (two_ne_zero) |>.mp h0
        linarith
    · exact absurd h0 hdpos.ne'
  · intro h
    have h20 : (RL - b * s) ^ 2 = 0 := by
      rw [sub_eq_zero.mpr h]
      ring
    have hz : (s - 1) * (RL - b * s) ^ 2 / ((1 + s) * (b * s ^ 2 + RL) * (b + RL)) = 0 := by
      rw [h20]
      simp
    linarith

/-- The source's `kQ_product = k^2 * Q1 * Q2` equals
`(omega*M)^2 / (R1_ac * R2_ac)` on domain-valid inputs. -/
lemma kQv_eq {p : SimulationParams} (hv : Valid p) :
    kQv p = (omegav p * Mv p) ^ 2 / (R1acv p * R2acv p) := by
  have hL1 : 0 < L1v p := selfLVal_pos hv.1 hv.2.2.1 hv.2.2.2.1
  have hL2 : 0 < L2v p := selfLVal_pos hv.2.1 hv.2.2.1 hv.2.2.2.1
  have ha : 0 < R1acv p := R1acv_pos hv
  have hb : 0 < R2acv p := R2acv_pos hv
  have hsq : 0 < Real.sqrt (L1v p * L2v p) := Real.sqrt_pos.mpr (mul_pos hL1 hL2)
  unfold kQv kv Q1v Q2v calculate_coupling_coefficient
  rw [if_pos ⟨hL1, hL2⟩, if_pos ha, if_pos hb]
  rw [div_pow, Real.sq_sqrt (mul_pos hL1 hL2).le]
  field_simp
  ring

/-- Claim C1: on every domain-valid input, the actual efficiency computed by
`calculate_power_transfer` is at most the theoretical maximum
`kQ/(1+sqrt(1+kQ))^2` (both reported as percentages), with equality exactly
when the load resistance equals the computed `optimal_load`. -/
theorem c1_efficiency_le_max (p : SimulationParams)
    (h1 : 0 < p.primary_turns) (h2 : 0 < p.secondary_turns) (hr : 0 < p.coil_radius)
    (hd : 0 < p.wire_diameter) (hf : 0 < p.frequency) (hgap : 0 ≤ p.air_gap)
    (hload : 0 ≤ p.load_resistance) :
    ∃ r, calculate_power_transfer p = some r ∧
      r.percent ≤ r.max_percent ∧
      (r.percent = r.max_percent ↔ p.load_resistance = r.optimal_load_ohm) := by
  have hv : Valid p := ⟨h1, h2, hr, hd, hf⟩
  have ha : 0 < R1acv p := R1acv_pos hv
  have hb : 0 < R2acv p := R2acv_pos hv
  have hw : 0 < (omegav p * Mv p) ^ 2 :=
    pow_pos (mul_pos (omegav_pos hv) (Mv_pos hv)) 2
  have hkQeq : kQv p = (omegav p * Mv p) ^ 2 / (R1acv p * R2acv p) := kQv_eq hv
  have hkQpos : 0 < kQv p := by
    rw [hkQeq]
    exact div_pos hw (mul_pos ha hb)
  have hR2t : 0 < R2acv p + p.load_resistance := by linarith
  obtain ⟨hle, hiff⟩ :=
    eta_core (R1acv p) (R2acv p) ((omegav p * Mv p) ^ 2) p.load_resistance ha hb hw hload
  have heff : effv p = (omegav p * Mv p) ^ 2 / (R2acv p + p.load_resistance) /
      (R1acv p + (omegav p * Mv p) ^ 2 / (R2acv p + p.load_resistance)) *
      (p.load_resistance / (R2acv p + p.load_resistance)) := by
    unfold effv
    rw [if_pos ⟨hw, hR2t⟩]
  have hmax : etamaxv p = (omegav p * Mv p) ^ 2 / (R1acv p * R2acv p) /
      (1 + Real.sqrt (1 + (omegav p * Mv p) ^ 2 / (R1acv p * R2acv p))) ^ 2 := by
    unfold etamaxv
    rw [if_pos hkQpos, hkQeq]
  have hopt : optloadv p =
      R2acv p * Real.sqrt (1 + (omegav p * Mv p) ^ 2 / (R1acv p * R2acv p)) := by
    unfold optloadv
    rw [if_pos hkQpos, hkQeq]
  refine ⟨resultVal p, calculate_power_transfer_eq hv, ?_, ?_⟩
  · show effv p * 100 ≤ etamaxv p * 100
    rw [heff, hmax]
    exact mul_le_mul_of_nonneg_right hle (by norm_num)
  · show effv p * 100 = etamaxv p * 100 ↔ p.load_resistance = optloadv p
    rw [heff, hmax, hopt]
    constructor
    · intro h
      exact hiff.mp (mul_right_cancel₀ (by norm_num) h)
    · intro h
      rw [hiff.mpr h]

/-- Witness for `c1_efficiency_le_max` at the spec's example input. -/
theorem c1_efficiency_le_max_witness :
    ∃ r, calculate_power_transfer P0 = some r ∧
      r.percent ≤ r.max_percent ∧
      (r.percent = r.max_percent ↔ P0.load_resistance = r.optimal_load_ohm) :=
  c1_efficiency_le_max P0 (by decide) (by decide) (by norm_num [P0]) (by norm_num [P0])
    (by norm_num [P0]) (by norm_num [P0]) (by norm_num [P0])
